import Mathlib

/-!
Verification of the vegeta aggregation-and-reporting core
(src/lib/results.go and src/lib/reporters.go) against its design spec.

The embedding is shallow: Go values become Lean values, the per-source gob
decode loop becomes a function over the sequence of decode outcomes, and the
concurrent fan-in of `Collect` becomes a small-step interleaving relation on
an explicit state.  `time.Time` and `time.Duration` are modelled as integer
nanosecond counts.
-/

namespace Vegeta

/-- Embedding of the `Result` struct (results.go lines 16-23): status code,
timestamp (nanoseconds, `time.Time`), latency (nanoseconds, `time.Duration`),
bytes out, bytes in, and the error string. -/
structure Result where
  Code      : Int
  Timestamp : Int
  Latency   : Int
  BytesOut  : Nat
  BytesIn   : Nat
  Error     : String
deriving DecidableEq, Repr

/-- One outcome the gob decoder yields before reaching `io.EOF`
(results.go lines 38-46): either a successfully decoded record (`ok`) or a
decode error with its message (`err`).  End-of-stream is the end of the
list. -/
inductive DecodeEvent where
  | ok (r : Result)
  | err (e : String)
deriving DecidableEq, Repr

/-- The record carried by a decode outcome, if it succeeded. -/
def recOf : DecodeEvent → Option Result
  | .ok r => some r
  | .err _ => none

/-- The error message carried by a decode outcome, if it failed. -/
def errOf : DecodeEvent → Option String
  | .err e => some e
  | .ok _ => none

/-- The body of one decode task of `Collect` (results.go lines 35-49), run
sequentially over the outcomes of its own source: on a decoded record publish
it to the record channel, on a decode error publish the error to the error
channel and continue with the same stream, on `io.EOF` (end of the list)
return.  The two components are the sequences published on the record channel
and on the error channel by this task. -/
def decodeLoop : List DecodeEvent → List Result × List String
  | [] => ([], [])
  | .ok r :: rest => (r :: (decodeLoop rest).1, (decodeLoop rest).2)
  | .err e :: rest => ((decodeLoop rest).1, e :: (decodeLoop rest).2)

theorem decodeLoop_eq (evs : List DecodeEvent) :
    decodeLoop evs = (evs.filterMap recOf, evs.filterMap errOf) := by
  induction evs with
  | nil => rfl
  | cons ev rest ih =>
    cases ev <;> simp [decodeLoop, recOf, errOf, ih]

theorem decodeLoop_err_count (evs : List DecodeEvent) :
    (decodeLoop evs).2.length =
      (evs.filter (fun ev => (errOf ev).isSome)).length := by
  induction evs with
  | nil => rfl
  | cons ev rest ih =>
    cases ev <;> simp [decodeLoop, errOf, List.filter, ih]

/-- C2.  For every input stream, each record that fails to decode causes
exactly one error to be published on the error channel and the decoding task
then continues decoding subsequent records from the same stream; only a clean
end-of-stream terminates the task, so a single corrupt record never prevents
later valid records of that stream from being delivered: around any corrupt
record, the task still publishes every valid record of the rest of the stream,
in order, and publishes exactly one error per corrupt record. -/
theorem collect_decode_error_nonfatal :
    (∀ xs ys : List DecodeEvent, ∀ e : String,
        (decodeLoop (xs ++ DecodeEvent.err e :: ys)).1 =
          (decodeLoop xs).1 ++ (decodeLoop ys).1 ∧
        (decodeLoop (xs ++ DecodeEvent.err e :: ys)).2 =
          (decodeLoop xs).2 ++ e :: (decodeLoop ys).2) ∧
    (∀ evs : List DecodeEvent,
        (decodeLoop evs).2.length =
          (evs.filter (fun ev => (errOf ev).isSome)).length ∧
        (decodeLoop evs).1 = evs.filterMap recOf) := by
  refine ⟨fun xs ys e => ?_, fun evs => ⟨decodeLoop_err_count evs, ?_⟩⟩
  · simp [decodeLoop_eq, recOf, errOf]
  · simp [decodeLoop_eq]

/-! ### The concurrent fan-in of `Collect` (results.go lines 28-59)

`Collect` spawns one decode task per input reader, all publishing into the
shared record and error channels, and a completion goroutine that waits for
every task (`wg.Wait()`) and then closes both channels.  We model it as a
small-step interleaving system: a state holds the remaining decode outcomes of
every source, the records and errors received so far by a consumer draining
both channels, and whether the channels have been closed. -/

/-- A state of the `Collect` pipeline: remaining input per source, records
delivered on the record channel so far, errors delivered on the error channel
so far, and whether the two channels have been closed. -/
structure CollectState where
  streams   : List (List DecodeEvent)
  delivered : List Result
  errors    : List String
  closed    : Bool
deriving DecidableEq, Repr

/-- One interleaved step of `Collect`: some task publishes its next decoded
record (results.go line 47) or its next decode error (line 44), or — once
every task has consumed its whole stream and returned at `io.EOF` — the
completion goroutine closes both channels (lines 52-56). -/
inductive CollectStep : CollectState → CollectState → Prop where
  | deliver (pre post : List (List DecodeEvent)) (r : Result)
      (tl : List DecodeEvent) (d : List Result) (es : List String) (c : Bool) :
      CollectStep ⟨pre ++ (DecodeEvent.ok r :: tl) :: post, d, es, c⟩
                  ⟨pre ++ tl :: post, d ++ [r], es, c⟩
  | fail (pre post : List (List DecodeEvent)) (e : String)
      (tl : List DecodeEvent) (d : List Result) (es : List String) (c : Bool) :
      CollectStep ⟨pre ++ (DecodeEvent.err e :: tl) :: post, d, es, c⟩
                  ⟨pre ++ tl :: post, d, es ++ [e], c⟩
  | close (ss : List (List DecodeEvent)) (d : List Result) (es : List String)
      (h : ∀ l ∈ ss, l = []) :
      CollectStep ⟨ss, d, es, false⟩ ⟨ss, d, es, true⟩

/-- Zero or more interleaved steps. -/
def CollectReaches : CollectState → CollectState → Prop :=
  Relation.ReflTransGen CollectStep

/-- The initial state of `Collect` on sources whose contents decode to the
given event sequences: nothing delivered, channels open. -/
def collectInit (ss : List (List DecodeEvent)) : CollectState :=
  ⟨ss, [], [], false⟩

/-- The multiset of records among a stream's decode outcomes. -/
def recsOf (l : List DecodeEvent) : Multiset Result :=
  ↑(l.filterMap recOf)

/-- The multiset of all records among all streams' decode outcomes. -/
def totalRecs (ss : List (List DecodeEvent)) : Multiset Result :=
  (ss.map recsOf).sum

/-- The invariant of the `Collect` step system, for sources that contain only
well-formed records: the records delivered so far plus the records still to be
decoded are exactly the records of the initial streams; the channels are
closed only if every stream is exhausted; no error was ever delivered, and no
corrupt outcome is pending. -/
def CollectInv (init : List (List DecodeEvent)) (s : CollectState) : Prop :=
  ↑s.delivered + totalRecs s.streams = totalRecs init ∧
  (s.closed = true → ∀ l ∈ s.streams, l = []) ∧
  s.errors = [] ∧
  (∀ l ∈ s.streams, ∀ ev ∈ l, errOf ev = none)

theorem totalRecs_middle (pre post : List (List DecodeEvent))
    (hd : List DecodeEvent) :
    totalRecs (pre ++ hd :: post) =
      recsOf hd + totalRecs pre + totalRecs post := by
  simp only [totalRecs, List.map_append, List.map_cons, List.sum_append,
    List.sum_cons]
  abel

theorem collectStep_inv {init : List (List DecodeEvent)}
    {s t : CollectState} (hstep : CollectStep s t)
    (hinv : CollectInv init s) : CollectInv init t := by
  obtain ⟨hbal, hclosed, herrs, hwf⟩ := hinv
  cases hstep with
  | deliver pre post r tl d es c =>
    refine ⟨?_, ?_, herrs, ?_⟩
    · rw [← hbal]
      show ↑(d ++ [r]) + totalRecs (pre ++ tl :: post) =
        ↑d + totalRecs (pre ++ (DecodeEvent.ok r :: tl) :: post)
      rw [totalRecs_middle, totalRecs_middle]
      simp only [recsOf, List.filterMap_cons, recOf]
      simp only [← Multiset.cons_coe, ← Multiset.coe_add,
        ← Multiset.singleton_add, Multiset.coe_singleton, Multiset.coe_nil]
      abel
    · intro hc
      have hmem : DecodeEvent.ok r :: tl ∈
          pre ++ (DecodeEvent.ok r :: tl) :: post :=
        List.mem_append.2 (Or.inr (List.mem_cons_self _ _))
      exact absurd (hclosed hc _ hmem) (by simp)
    · intro l hl ev hev
      rcases List.mem_append.1 hl with h | h
      · exact hwf l (List.mem_append.2 (Or.inl h)) ev hev
      · rcases List.mem_cons.1 h with h | h
        · subst h
          exact hwf _ (List.mem_append.2 (Or.inr (List.mem_cons_self _ _))) ev
            (List.mem_cons.2 (Or.inr hev))
        · exact hwf l (List.mem_append.2 (Or.inr (List.mem_cons.2 (Or.inr h))))
            ev hev
  | fail pre post e tl d es c =>
    have hmem : DecodeEvent.err e :: tl ∈
        pre ++ (DecodeEvent.err e :: tl) :: post :=
      List.mem_append.2 (Or.inr (List.mem_cons_self _ _))
    exact absurd (hwf _ hmem (DecodeEvent.err e) (List.mem_cons_self _ _))
      (by simp [errOf])
  | close ss d es h =>
    exact ⟨hbal, fun _ => h, herrs, hwf⟩

theorem collectReaches_inv {init : List (List DecodeEvent)}
    {s : CollectState}
    (hwf0 : ∀ l ∈ init, ∀ ev ∈ l, errOf ev = none)
    (h : CollectReaches (collectInit init) s) :
    CollectInv init s := by
  induction h with
  | refl => exact ⟨by simp [collectInit], by simp [collectInit], rfl, hwf0⟩
  | tail _ hstep ih => exact collectStep_inv hstep ih

/-- The decode-outcome streams of sources that contain only well-formed
encoded records: every outcome is a successful decode. -/
def wellFormedStreams (ss : List (List Result)) : List (List DecodeEvent) :=
  ss.map (List.map DecodeEvent.ok)

theorem totalRecs_wellFormed (ss : List (List Result)) :
    totalRecs (wellFormedStreams ss) = ↑ss.flatten := by
  induction ss with
  | nil => rfl
  | cons l rest ih =>
    simp only [wellFormedStreams, List.map_cons, totalRecs, List.sum_cons,
      List.flatten_cons] at ih ⊢
    rw [ih]
    simp only [recsOf, List.filterMap_map]
    rw [show recOf ∘ DecodeEvent.ok = some from rfl, List.filterMap_some,
      ← Multiset.coe_add]

theorem totalRecs_of_empty (ss : List (List DecodeEvent))
    (h : ∀ l ∈ ss, l = []) : totalRecs ss = 0 := by
  refine List.sum_eq_zero ?_
  intro x hx
  rcases List.mem_map.1 hx with ⟨l, hl, rfl⟩
  rw [h l hl]
  rfl

/-- C1.  For every list of input readers whose contents decode to
well-formed records only (`k_i` records in reader `i`, then end-of-stream),
`Collect` closes the two channels only after every source has reached
end-of-stream (in every reachable state, `closed` implies every stream is
exhausted), and in every reachable state where all sources have reached
end-of-stream the consumer has received every decoded record exactly once —
as a multiset, exactly the records of all readers, hence exactly `Σ k_i`
records, none dropped or duplicated — and no error was delivered. -/
theorem collect_delivers_all (ss : List (List Result)) (s : CollectState)
    (hreach : CollectReaches (collectInit (wellFormedStreams ss)) s) :
    (s.closed = true → ∀ l ∈ s.streams, l = []) ∧
    ((∀ l ∈ s.streams, l = []) →
      (↑s.delivered : Multiset Result) = ↑ss.flatten ∧
      s.delivered.length = (ss.map List.length).sum ∧
      s.errors = []) := by
  have hwf0 : ∀ l ∈ wellFormedStreams ss, ∀ ev ∈ l, errOf ev = none := by
    intro l hl ev hev
    rcases List.mem_map.1 hl with ⟨l', _, rfl⟩
    rcases List.mem_map.1 hev with ⟨r, _, rfl⟩
    rfl
  obtain ⟨hbal, hclosed, herrs, _⟩ := collectReaches_inv hwf0 hreach
  refine ⟨hclosed, fun hempty => ?_⟩
  rw [totalRecs_of_empty s.streams hempty, add_zero, totalRecs_wellFormed]
    at hbal
  refine ⟨hbal, ?_, herrs⟩
  have := congrArg Multiset.card hbal
  simpa [List.length_flatten] using this

theorem collect_delivers_all_witness :
    (⟨[[], []], [⟨200, 0, 1000, 0, 0, ""⟩, ⟨404, 5, 2000, 0, 0, "x"⟩],
        [], true⟩ : CollectState).delivered.length =
      (([[⟨200, 0, 1000, 0, 0, ""⟩], [⟨404, 5, 2000, 0, 0, "x"⟩]] :
        List (List Result)).map List.length).sum ∧
    ((2 : Nat) = (([[(⟨200, 0, 1000, 0, 0, ""⟩ : Result)],
        [⟨404, 5, 2000, 0, 0, "x"⟩]] :
        List (List Result)).map List.length).sum) := by
  have hreach : CollectReaches
      (collectInit (wellFormedStreams
        [[⟨200, 0, 1000, 0, 0, ""⟩], [⟨404, 5, 2000, 0, 0, "x"⟩]]))
      ⟨[[], []], [⟨200, 0, 1000, 0, 0, ""⟩, ⟨404, 5, 2000, 0, 0, "x"⟩],
        [], true⟩ := by
    refine Relation.ReflTransGen.head
      (CollectStep.deliver [] [[DecodeEvent.ok ⟨404, 5, 2000, 0, 0, "x"⟩]]
        ⟨200, 0, 1000, 0, 0, ""⟩ [] [] [] false) ?_
    refine Relation.ReflTransGen.head
      (CollectStep.deliver [[]] [] ⟨404, 5, 2000, 0, 0, "x"⟩ []
        [⟨200, 0, 1000, 0, 0, ""⟩] [] false) ?_
    exact Relation.ReflTransGen.single
      (CollectStep.close [[], []]
        [⟨200, 0, 1000, 0, 0, ""⟩, ⟨404, 5, 2000, 0, 0, "x"⟩] []
        (by decide))
  exact ⟨((collect_delivers_all _ _ hreach).2 (by decide)).2.1, by decide⟩

/-! ### The visualization reporter `ReportPlot` (reporters.go lines 58-97)

The loop at lines 62-73 builds one data point per record: the x-coordinate is
`r[i].Timestamp.Sub(r[0].Timestamp)` (rendered in seconds), and exactly one of
the two latency columns — labelled `ERR` and `OK` in the template, line 116 —
carries `r[i].Latency` (rendered in milliseconds) while the other carries the
literal `NaN`, dygraphs' missing-value marker.  We model a point with the
elapsed time in nanoseconds and the two columns as `Option` values
(`none` = `NaN`); the float rendering of `strconv.FormatFloat` is a
monotone-positive rescaling that the claims do not inspect. -/

/-- One generated data point of the plot series. -/
structure PlotPoint where
  x       : Int
  errSlot : Option Int
  okSlot  : Option Int
deriving DecidableEq, Repr

/-- The point the loop body (reporters.go lines 63-70) builds for record `r`
when the first record of the collection is `r0`: elapsed time since `r0`, and
`if r[i].Error == ""` the latency goes in the `OK` column with `NaN` in the
`ERR` column, otherwise the latency goes in the `ERR` column with `NaN` in
the `OK` column. -/
def plotPoint (r0 r : Result) : PlotPoint :=
  { x := r.Timestamp - r0.Timestamp
  , errSlot := if r.Error = "" then none else some r.Latency
  , okSlot := if r.Error = "" then some r.Latency else none }

/-- The whole data series of `ReportPlot` (reporters.go lines 62-73): one
point per record, in collection order; the loop body reads `r[0]` only when
the loop runs, so an empty collection yields an empty series. -/
def plotSeries : List Result → List PlotPoint
  | [] => []
  | r0 :: rest => (r0 :: rest).map (plotPoint r0)

/-- C3.  For every record in the collection given to `ReportPlot`, exactly
one of the two latency slots of its generated data point is populated — the
success (`OK`) slot if and only if the record's error string is empty, the
error (`ERR`) slot if and only if it is non-empty — the other slot carrying
the missing-value marker `NaN` (here `none`), the populated one carrying the
record's latency; the error string's emptiness is the sole discriminator: the
status code plays no role in the series. -/
theorem plot_series_slots (r0 r : Result) :
    ((plotPoint r0 r).okSlot.isSome ↔ r.Error = "") ∧
    ((plotPoint r0 r).errSlot.isSome ↔ ¬r.Error = "") ∧
    ((plotPoint r0 r).okSlot.isSome ↔ ¬(plotPoint r0 r).errSlot.isSome) ∧
    (plotPoint r0 r).okSlot.or (plotPoint r0 r).errSlot = some r.Latency ∧
    (∀ c : Int, plotPoint r0 { r with Code := c } = plotPoint r0 r) := by
  by_cases h : r.Error = "" <;>
    simp [plotPoint, h, Option.or]

/-- C10.  For every non-empty collection, the generated data series of
`ReportPlot` contains exactly one point per record, in the collection's given
order, and the x-coordinate of record `i` is its timestamp minus the
timestamp of the first record in the given order — so the first point's
x-coordinate is always `0`, and a collection that is not sorted by timestamp
can put a negative x-coordinate on a later point, as the concrete unsorted
two-record collection here does. -/
theorem plot_series_x_elapsed :
    (∀ (r0 : Result) (rest : List Result),
      (plotSeries (r0 :: rest)).length = (r0 :: rest).length ∧
      (∀ i : Nat, ((plotSeries (r0 :: rest))[i]?.map PlotPoint.x) =
        ((r0 :: rest)[i]?.map (fun r => r.Timestamp - r0.Timestamp))) ∧
      ((plotSeries (r0 :: rest)).head?.map PlotPoint.x) = some 0) ∧
    ((plotSeries [⟨200, 10, 1, 0, 0, ""⟩, ⟨200, 3, 1, 0, 0, ""⟩])[1]?.map
        PlotPoint.x) = some (-7) := by
  refine ⟨fun r0 rest => ⟨by simp [plotSeries], fun i => ?_, ?_⟩, by decide⟩
  · cases i with
    | zero => simp [plotSeries, plotPoint]
    | succ j =>
      simp only [plotSeries, List.map_cons, List.getElem?_cons_succ,
        List.getElem?_map, Option.map_map]
      rfl
  · simp [plotSeries, plotPoint]

/-- Rendering of one data point into the series buffer (reporters.go lines
63-70): `[x,errCol,okCol],` where a missing column is the literal `NaN`.
The `strconv.FormatFloat` second/millisecond renderings are elided: the
integer nanosecond values stand in for them. -/
def slotString : Option Int → String
  | none => "NaN"
  | some v => toString v

def pointString (p : PlotPoint) : String :=
  "[" ++ toString p.x ++ "," ++ slotString p.errSlot ++ ","
    ++ slotString p.okSlot ++ "],"

/-- The series buffer after the loop (reporters.go lines 61-73). -/
def seriesBuf (rs : List Result) : String :=
  String.join ((plotSeries rs).map pointString)

/-- The series after the trailing-comma truncation (reporters.go lines
74-77): `if series.Len() > 0` drop the last byte. -/
def seriesFinal (rs : List Result) : String :=
  if seriesBuf rs = "" then seriesBuf rs else (seriesBuf rs).dropRight 1

/-- The `bgcolor` expression of a table row of `plotsTemplate`
(reporters.go line 163): `{{ if eq .Code 200 }} #8AE234 {{else}} #FA7878
{{end}}` — the success colour exactly when the status code equals 200. -/
def rowColor (r : Result) : String :=
  if r.Code = 200 then " #8AE234 " else " #FA7878 "

/-- The `{{else}}` row of the template's `{{range .Results}}` (reporters.go
line 172), emitted when the collection is empty. -/
def noResultsRow : String := "<tr><b>No Results found</b></tr>"

/-- The outcome of rendering the table body of `plotsTemplate` (reporters.go
lines 162-173).  On an empty collection the `{{range}}` takes its `{{else}}`
branch and emits the no-results row.  On a non-empty collection each row
evaluates `.Request.Method` and `.Request.URL` (lines 166-167) — fields the
`Result` struct of results.go does not declare — so `text/template` execution
fails on the first row with a missing-field error. -/
def tableSection : List Result → Except String String
  | [] => Except.ok noResultsRow
  | _ :: _ =>
    Except.error
      "template: plot: can't evaluate field Request in type vegeta.Result"

/-- The assembled plot document.  The template's static HTML/JS text is
abbreviated to short stand-ins; what the claims inspect is where the dynamic
parts — the charting library source `JsSrc`, the data series and the table
body — are spliced in (reporters.go lines 108, 113, 162-173). -/
def plotDoc (jsSrc series rows : String) : String :=
  "<!doctype><html><head><title>Vegeta Plots</title></head><body><script>"
    ++ jsSrc ++ "</script><script>var g = new Dygraph(latencies, ["
    ++ series ++ "], options)</script></body><table><tr><th>Timestamp</th>"
    ++ "<th>Return Code</th><th>Method </th><th>URL </th><th>In (bytes)</th>"
    ++ "<th>Out (bytes)</th></tr>" ++ rows ++ "</table></html>"

/-- Model of ReportPlot (reporters.go lines 60-97) with the charting library source
(the missing `dygraphJSLibSrc`, an opaque external asset) passed in: build
the series, execute the template; on a template error return `nil` and the
error (lines 92-94), otherwise return the document bytes and no error. -/
def reportPlotRun (jsSrc : String) (rs : List Result) :
    Option String × Option String :=
  match tableSection rs with
  | .error e => (none, some e)
  | .ok rows => (some (plotDoc jsSrc (seriesFinal rs) rows), none)

/-- C8.  `ReportPlot` applied to a collection of zero records does not
fail and never reads a first record (the series loop does not run, so the
series is empty), and it returns a document whose table carries the explicit
no-results indicator row. -/
theorem report_plot_empty_ok (jsSrc : String) :
    plotSeries [] = [] ∧
    seriesFinal [] = "" ∧
    (reportPlotRun jsSrc []).2 = none ∧
    (∃ a b : String,
      (reportPlotRun jsSrc []).1 = some (a ++ noResultsRow ++ b)) := by
  refine ⟨rfl, rfl, rfl, ?_⟩
  exact ⟨"<!doctype><html><head><title>Vegeta Plots</title></head><body>"
      ++ "<script>" ++ jsSrc
      ++ "</script><script>var g = new Dygraph(latencies, ["
      ++ "], options)</script></body><table><tr><th>Timestamp</th>"
      ++ "<th>Return Code</th><th>Method </th><th>URL </th><th>In (bytes)</th>"
      ++ "<th>Out (bytes)</th></tr>",
    "</table></html>", by
      simp [reportPlotRun, tableSection, plotDoc, seriesFinal, seriesBuf,
        plotSeries, String.join]⟩

/-- C7 counterexample.  The claim that a record with an empty error
string receives the success colour regardless of its status code fails on
the code: the template colours by `.Code == 200`, so the record with status
code 204 and empty error string gets the failure colour. -/
theorem plot_table_color_counterexample :
    (⟨204, 0, 1, 0, 0, ""⟩ : Result).Error = "" ∧
    rowColor ⟨204, 0, 1, 0, 0, ""⟩ = " #FA7878 " ∧
    " #FA7878 " ≠ " #8AE234 " := by
  refine ⟨rfl, by decide, by decide⟩

/-- C7 amended.  In the visualization reporter's tabular listing, a
record's row colour is determined solely by its status code: the success
colour exactly when the code equals 200, the failure colour otherwise; the
error string plays no role. -/
theorem plot_table_color_by_code (r : Result) :
    (rowColor r = " #8AE234 " ↔ r.Code = 200) ∧
    (∀ e : String, rowColor { r with Error := e } = rowColor r) := by
  constructor
  · by_cases h : r.Code = 200 <;> simp [rowColor, h]
  · intro e
    simp [rowColor]

/-! ### Summary statistics

`NewMetrics` and the `Metrics` struct are called by every reporter
(reporters.go lines 27, 55) but their definition is not under src/; the
definitions below are modelled from the spec (§3 "Summary Statistics",
§4.2 "Metrics computation", §6 "Structured report encoding"). -/

/-- Insert into an ascending list, keeping it ascending. -/
def insertAsc (x : Int) : List Int → List Int
  | [] => [x]
  | y :: ys => if x ≤ y then x :: y :: ys else y :: insertAsc x ys

/-- Sort ascending (insertion sort). -/
def sortAsc (l : List Int) : List Int := l.foldr insertAsc []

/-- Modelled from the spec: §4.2 "Percentiles computed on the latency values
sorted ascending; use a fixed interpolation-free rank selection (e.g.
nearest-rank at `ceil(p * n) - 1`, clamped to valid index)"; `0` on an empty
collection.  `p` is given as `num / den`. -/
def percentile (sorted : List Int) (num den : Nat) : Int :=
  if sorted.length = 0 then 0
  else sorted.getD
    (min (sorted.length - 1) ((num * sorted.length + den - 1) / den - 1)) 0

/-- Add one occurrence of a status-code key to the histogram, keeping
first-occurrence order (spec §4.2: any deterministic order). -/
def bump : List (String × Nat) → String → List (String × Nat)
  | [], c => [(c, 1)]
  | (k, v) :: rest, c =>
    if k = c then (k, v + 1) :: rest else (k, v) :: bump rest c

/-- Modelled from the spec: §3/§4.2 status-code histogram, keys the string
form of the numeric code, one count per record, deterministic
(first-occurrence) order. -/
def statusCodes (rs : List Result) : List (String × Nat) :=
  rs.foldl (fun acc r => bump acc (toString r.Code)) []

/-- Modelled from the spec: §4.2 "the set of distinct non-empty error strings
across all records, insertion order". -/
def errorSet (rs : List Result) : List String :=
  rs.foldl
    (fun acc r => if r.Error = "" ∨ r.Error ∈ acc then acc else acc ++ [r.Error])
    []

/-- Latency statistics of a `Metrics` value (spec §3, §6): mean and selected
percentiles plus max, in nanoseconds. -/
structure LatencyStats where
  Mean : Int
  P50  : Int
  P95  : Int
  P99  : Int
  Max  : Int
deriving DecidableEq, Repr

/-- Byte statistics of a `Metrics` value (spec §6): integer total, mean. -/
structure ByteStats where
  Total : Nat
  Mean  : ℚ
deriving DecidableEq, Repr

/-- Modelled from the spec: the `Metrics` struct (not under src/), fields per
§3 and §6 — request count, attack/wait durations, latency distribution, byte
totals and means, success ratio, status-code histogram, error set. -/
structure Metrics where
  Requests    : Nat
  Duration    : Int
  Wait        : Int
  Latencies   : LatencyStats
  BytesIn     : ByteStats
  BytesOut    : ByteStats
  Success     : ℚ
  StatusCodes : List (String × Nat)
  Errors      : List String
deriving DecidableEq, Repr

/-- Modelled from the spec: `NewMetrics` (not under src/), per §4.2: computed
deterministically from the collection, every ratio and mean defined as zero —
not an error — on an empty collection. -/
def NewMetrics (rs : List Result) : Metrics :=
  let n := rs.length
  let lats := sortAsc (rs.map Result.Latency)
  { Requests := n
  , Duration :=
      match rs.head?, rs.getLast? with
      | some first, some last => last.Timestamp - first.Timestamp
      | _, _ => 0
  , Wait := match rs.getLast? with | some last => last.Latency | none => 0
  , Latencies :=
    { Mean := if n = 0 then 0 else (rs.map Result.Latency).sum / n
    , P50 := percentile lats 50 100
    , P95 := percentile lats 95 100
    , P99 := percentile lats 99 100
    , Max := (rs.map Result.Latency).foldr max 0 }
  , BytesIn :=
    { Total := (rs.map Result.BytesIn).sum
    , Mean := if n = 0 then 0 else ((rs.map Result.BytesIn).sum : ℚ) / n }
  , BytesOut :=
    { Total := (rs.map Result.BytesOut).sum
    , Mean := if n = 0 then 0 else ((rs.map Result.BytesOut).sum : ℚ) / n }
  , Success :=
      if n = 0 then 0
      else ((rs.filter (fun r => r.Error = "")).length : ℚ) / n
  , StatusCodes := statusCodes rs
  , Errors := errorSet rs }

/-- C5.  Computing summary statistics on an empty collection succeeds and
yields zero for every count, every mean, every percentile, the success
ratio, and empty histogram and error set — every derived ratio and mean is
defined as zero on empty input, not as an error (in this total model, no
division by zero is ever performed: every quotient is guarded by the
emptiness test). -/
theorem metrics_empty_zero :
    NewMetrics [] =
      { Requests := 0, Duration := 0, Wait := 0
      , Latencies := ⟨0, 0, 0, 0, 0⟩
      , BytesIn := ⟨0, 0⟩, BytesOut := ⟨0, 0⟩
      , Success := 0, StatusCodes := [], Errors := [] } := by
  rfl

/-! ### The structured reporter `ReportJSON` (reporters.go lines 54-56)

`ReportJSON` is `json.Marshal(NewMetrics(r))`; the JSON field names live on
the `Metrics` struct, which is not under src/, so the encoding is modelled
from spec §6 "Structured report encoding" with its fixed field names. -/

/-- A JSON value: number (exact rational — Go round-trips these fields
exactly), string, array, object as an ordered field list. -/
inductive Json where
  | num (q : ℚ)
  | str (s : String)
  | arr (xs : List Json)
  | obj (fields : List (String × Json))

/-- Modelled from the spec: the structured encoding of a `Metrics` value,
top-level fields per §6 — request count, the three durations, the latency
quintet, bytes in/out, success ratio, status-code histogram (mapping
string→integer), error set. -/
def encodeMetrics (m : Metrics) : Json :=
  .obj
    [ ("requests", .num m.Requests)
    , ("duration_total", .num (m.Duration + m.Wait : Int))
    , ("duration_attack", .num m.Duration)
    , ("duration_wait", .num m.Wait)
    , ("latencies", .obj
        [ ("mean", .num m.Latencies.Mean), ("p50", .num m.Latencies.P50)
        , ("p95", .num m.Latencies.P95), ("p99", .num m.Latencies.P99)
        , ("max", .num m.Latencies.Max) ])
    , ("bytes_in", .obj
        [ ("total", .num m.BytesIn.Total), ("mean", .num m.BytesIn.Mean) ])
    , ("bytes_out", .obj
        [ ("total", .num m.BytesOut.Total), ("mean", .num m.BytesOut.Mean) ])
    , ("success", .num m.Success)
    , ("status_codes", .obj
        (m.StatusCodes.map (fun p => (p.1, Json.num (p.2 : ℚ)))))
    , ("errors", .arr (m.Errors.map Json.str)) ]

/-- Field lookup in a decoded JSON object. -/
def jsonLookup (name : String) : Json → Option Json
  | .obj fields => fields.lookup name
  | _ => none

/-- Decode a JSON number as a non-negative integer. -/
def jsonToNat : Json → Option Nat
  | .num q => if q.den = 1 ∧ 0 ≤ q.num then some q.num.toNat else none
  | _ => none

/-- Decode a JSON number as a rational. -/
def jsonToRat : Json → Option ℚ
  | .num q => some q
  | _ => none

/-- Decode the request count from a structured report. -/
def decodeRequests (j : Json) : Option Nat :=
  (jsonLookup "requests" j).bind jsonToNat

/-- Decode the success ratio from a structured report. -/
def decodeSuccess (j : Json) : Option ℚ :=
  (jsonLookup "success" j).bind jsonToRat

/-- Decode the entries of the status-code histogram object. -/
def decodeCounts : List (String × Json) → Option (List (String × Nat))
  | [] => some []
  | (k, v) :: rest =>
    match jsonToNat v, decodeCounts rest with
    | some n, some tl => some ((k, n) :: tl)
    | _, _ => none

/-- Decode the status-code histogram from a structured report. -/
def decodeStatusCodes (j : Json) : Option (List (String × Nat)) :=
  match jsonLookup "status_codes" j with
  | some (.obj fields) => decodeCounts fields
  | _ => none

theorem jsonToNat_natCast (n : Nat) : jsonToNat (Json.num (n : ℚ)) = some n := by
  simp [jsonToNat, Rat.den_natCast, Rat.num_natCast]

theorem decodeCounts_encode (l : List (String × Nat)) :
    decodeCounts (l.map (fun p => (p.1, Json.num (p.2 : ℚ)))) = some l := by
  induction l with
  | nil => rfl
  | cons p rest ih =>
    simp [decodeCounts, jsonToNat_natCast, ih]

/-- C6.  For every collection, decoding the structured (JSON) report
produced by `ReportJSON` reproduces the request count, the success ratio and
the status-code histogram exactly as the statistics computation produced
them: the round-trip through the structured encoding preserves these
fields. -/
theorem report_json_roundtrip (rs : List Result) :
    decodeRequests (encodeMetrics (NewMetrics rs)) =
      some (NewMetrics rs).Requests ∧
    decodeSuccess (encodeMetrics (NewMetrics rs)) =
      some (NewMetrics rs).Success ∧
    decodeStatusCodes (encodeMetrics (NewMetrics rs)) =
      some (NewMetrics rs).StatusCodes := by
  refine ⟨?_, ?_, ?_⟩
  · simp [encodeMetrics, decodeRequests, jsonLookup, List.lookup,
      jsonToNat_natCast]
  · simp [encodeMetrics, decodeSuccess, jsonLookup, List.lookup, jsonToRat]
  · simp [encodeMetrics, decodeStatusCodes, jsonLookup, List.lookup,
      decodeCounts_encode]

/-! ### The text reporter `ReportText` (reporters.go lines 26-51)

The reporter formats `NewMetrics(r)` line by line into a `tabwriter` over a
`bytes.Buffer` and returns the buffer's bytes after `Flush`; on a flush error
it returns an empty byte slice and the error.  The tabwriter's column
alignment and Go's `%s`/`%.2f` value formatting are elided: the exact values
are rendered with `toString`/`ratString`.  The status-code section iterates
`m.StatusCodes` with Go's `range` over a map, whose order the Go
specification leaves unspecified and the runtime randomizes per run, so the
entry order is an explicit parameter of the model. -/

/-- Exact rendering of a rational (stands in for Go's `%.2f`/`%s`). -/
def ratString (q : ℚ) : String := toString q.num ++ "/" ++ toString q.den

/-- The status-code section body (reporters.go lines 39-41): one
`code:count  ` fragment per histogram entry, in the given map-range order. -/
def statusCodesSection (entries : List (String × Nat)) : String :=
  entries.foldl (fun acc p => acc ++ p.1 ++ ":" ++ toString p.2 ++ "  ") ""

/-- Everything `ReportText` writes before the status-code entries
(reporters.go lines 31-38). -/
def reportTextHead (rs : List Result) : String :=
  let m := NewMetrics rs
  "Requests\t[total]\t" ++ toString m.Requests ++ "\n"
    ++ "Duration\t[total, attack, wait]\t" ++ toString (m.Duration + m.Wait)
    ++ ", " ++ toString m.Duration ++ ", " ++ toString m.Wait ++ "\n"
    ++ "Latencies\t[mean, 50, 95, 99, max]\t" ++ toString m.Latencies.Mean
    ++ ", " ++ toString m.Latencies.P50 ++ ", " ++ toString m.Latencies.P95
    ++ ", " ++ toString m.Latencies.P99 ++ ", " ++ toString m.Latencies.Max
    ++ "\n"
    ++ "Bytes In\t[total, mean]\t" ++ toString m.BytesIn.Total ++ ", "
    ++ ratString m.BytesIn.Mean ++ "\n"
    ++ "Bytes Out\t[total, mean]\t" ++ toString m.BytesOut.Total ++ ", "
    ++ ratString m.BytesOut.Mean ++ "\n"
    ++ "Success\t[ratio]\t" ++ ratString (m.Success * 100) ++ "%\n"
    ++ "Status Codes\t[code:count]\t"

/-- Everything `ReportText` writes after the status-code entries
(reporters.go lines 42-45). -/
def reportTextSuffix (rs : List Result) : String :=
  "\nError Set:\n"
    ++ String.join ((NewMetrics rs).Errors.map (fun e => e ++ "\n"))

/-- The bytes `ReportText` accumulates before `Flush` (reporters.go lines
26-45), with the map-range order of the status-code entries explicit. -/
def reportTextBody (rs : List Result) (order : List (String × Nat)) : String :=
  reportTextHead rs ++ statusCodesSection order ++ reportTextSuffix rs

/-- Model of ReportText (reporters.go lines 26-51) with the Flush outcome passed
in: on a flush error return the empty byte slice and the error (line 48),
otherwise the accumulated bytes and no error (line 50). -/
def reportTextRun (rs : List Result) (order : List (String × Nat))
    (flushErr : Option String) : String × Option String :=
  match flushErr with
  | some e => ("", some e)
  | none => (reportTextBody rs order, none)

/-- C4 failing evidence.  `ReportText`'s output depends on the order in
which Go's `range` yields the entries of the `StatusCodes` map: on the
two-record collection with status codes 200 and 404 the histogram is
`{"200": 1, "404": 1}`, and the two admissible range orders of those entries
produce different report bytes — so two invocations on the same collection
need not be byte-for-byte identical. -/
theorem report_text_histogram_order_dependent :
    statusCodes [⟨200, 0, 0, 0, 0, ""⟩, ⟨404, 1, 0, 0, 0, "x"⟩] =
      [("200", 1), ("404", 1)] ∧
    ([("404", 1), ("200", 1)] : List (String × Nat)).Perm
      [("200", 1), ("404", 1)] ∧
    reportTextBody [⟨200, 0, 0, 0, 0, ""⟩, ⟨404, 1, 0, 0, 0, "x"⟩]
        [("200", 1), ("404", 1)] ≠
      reportTextBody [⟨200, 0, 0, 0, 0, ""⟩, ⟨404, 1, 0, 0, 0, "x"⟩]
        [("404", 1), ("200", 1)] := by
  refine ⟨by decide, List.Perm.swap _ _ _, fun h => ?_⟩
  have hdata := congrArg String.data h
  simp only [reportTextBody, String.data_append] at hdata
  have hsec := List.append_cancel_left (List.append_cancel_right hdata)
  have : statusCodesSection [("200", 1), ("404", 1)] =
      statusCodesSection [("404", 1), ("200", 1)] := String.ext hsec
  exact absurd this (by decide)

/-- C9.  For every collection, when a reporter fails it returns the
failure together with no byte payload: `ReportText` on a flush error returns
the empty byte slice with the error, and `ReportPlot` returns `nil` exactly
when it returns a template-execution error; when a reporter succeeds it
returns the complete accumulated output — all-or-nothing delivery per report
call. -/
theorem report_failure_no_payload :
    (∀ (rs : List Result) (order : List (String × Nat)) (e : String),
      reportTextRun rs order (some e) = ("", some e)) ∧
    (∀ (rs : List Result) (order : List (String × Nat)),
      reportTextRun rs order none = (reportTextBody rs order, none)) ∧
    (∀ (jsSrc : String) (rs : List Result),
      ((reportPlotRun jsSrc rs).2.isSome ↔ (reportPlotRun jsSrc rs).1 = none)) := by
  refine ⟨fun rs order e => rfl, fun rs order => rfl, fun jsSrc rs => ?_⟩
  cases rs <;> simp [reportPlotRun, tableSection]

end Vegeta
